import Mathlib

/-
Verification development for the batch channel-open coordinator in
src/senseicore/src/channels.rs (struct ChannelOpener).

Shallow embedding notes:
* External collaborators (peer manager, address/pubkey parsing, the LDK
  channel manager, the wallet, the fee estimator, the broadcast debouncer)
  are modelled as pure oracle functions collected in `Env`.
* The tokio broadcast receiver is modelled by `Env.arrivals`: the list of
  events that `try_recv` drains during the i-th poll round of
  `wait_for_events` (the inner `while let Ok(event) = try_recv()` loop
  drains everything currently available, so one list per round).
* Rust panics (`expect`, `unwrap`, `panic!`) are modelled by the
  `Outcome.abort` constructor; a panic aborts the whole batch call.
* `u64` / `u32` values are modelled as `Nat` (no arithmetic in the source
  overflows: ids are only generated, compared and stored).
* The `f32` fee-rate computation (channels.rs lines 171-176) is modelled
  over `Rat`; the division `x / 250.0` is exact for every value the spec
  claims mention (0, 500), and the 253 branch never divides.
* `wait_for_events` (channels.rs lines 52-81) is a sleep loop; the
  embedding uses explicit fuel (`wfeLoop`), where `none` marks the case in
  which the Rust loop would still be running after the given number of
  outer-loop iterations.  The loop performs exactly
  ceil(timeout_ms / interval_ms) iterations when interval_ms > 0, which is
  the fuel `wait_for_events` passes.  The result is instrumented with the
  remaining (unmatched) filters and the number of `sleep` calls performed,
  which the source discards but which the spec talks about.
-/

deriving instance DecidableEq for Except

namespace Sensei

/-- channels.rs line 86: results carry `[u8; 32]` temporary channel ids;
modelled as `Nat`. -/
abbrev Tcid := Nat

/-- senseicore Error variants observable in channels.rs: line 152 uses
`Error::FundingGenerationNeverHappened`, line 213 `Error::LdkApi(e)`.
Other variants (and LDK `APIError` payloads) are modelled opaquely. -/
inductive Error where
  | fundingGenerationNeverHappened
  | ldkApi (e : Nat)
  | other (tag : Nat)
  deriving Repr, DecidableEq

/-- SenseiEvent, restricted to the one variant channels.rs matches on:
`FundingGenerationReady { node_id, user_channel_id, counterparty_node_id,
channel_value_satoshis, output_script, .. }`.  Public keys and scripts are
modelled as `Nat`; `other` stands for every unrelated bus event. -/
inductive SenseiEvent where
  | fundingGenerationReady (node_id : String) (user_channel_id : Nat)
      (counterparty_node_id : Nat) (channel_value_satoshis : Nat)
      (output_script : Nat)
  | other (tag : Nat)
  deriving Repr, DecidableEq

/-- channels.rs lines 14-19: `EventFilter<F> { f: F }` with
`F: Fn(SenseiEvent) -> bool`. -/
structure EventFilter where
  f : SenseiEvent → Bool

/-- Rust `Vec::swap_remove(i)`: replace element `i` with the last element
and pop the last element (channels.rs line 70).  Out-of-range `i` cannot
occur at the call site (the index comes from a successful find). -/
def swapRemove {α : Type} (l : List α) (i : Nat) : List α :=
  match l.get? i, l.getLast? with
  | some _, some last => (l.set i last).dropLast
  | _, _ => l

/-- channels.rs lines 62-66: `filters.iter().enumerate().find(..).map(index)`,
the index of the first filter whose predicate accepts the event. -/
def findFirstIdx {α : Type} (p : α → Bool) : List α → Option Nat
  | [] => none
  | a :: rest => if p a then some 0 else (findFirstIdx p rest).map (· + 1)

/-- channels.rs lines 61-76: the inner `while let Ok(event) = try_recv()`
drain loop of one poll round.  Processes the pending events in order; on a
first-filter match the event is recorded and the filter is swap-removed;
after each event, if the filter set is empty the function returns early
(third component `true`). -/
def drainRound (filters : List EventFilter) (pending : List SenseiEvent)
    (acc : List SenseiEvent) : List EventFilter × List SenseiEvent × Bool :=
  match pending with
  | [] => (filters, acc, false)
  | e :: rest =>
    match findFirstIdx (fun filt => filt.f e) filters with
    | some i =>
      if (swapRemove filters i).isEmpty then (swapRemove filters i, acc ++ [e], true)
      else drainRound (swapRemove filters i) rest (acc ++ [e])
    | none =>
      if filters.isEmpty then (filters, acc, true)
      else drainRound filters rest acc

/-- channels.rs lines 58-80: the outer `while current_ms < timeout_ms` loop
of `wait_for_events`, with explicit fuel bounding the number of outer
iterations still allowed.  `none` means the fuel ran out with the Rust
loop still running.  On `some (events, remaining, sleeps)`: the collected
events, the filters never matched, and how many times the loop slept. -/
def wfeLoop (fuel : Nat) (filters : List EventFilter)
    (arrivals : List (List SenseiEvent)) (events : List SenseiEvent)
    (currentMs timeoutMs intervalMs sleeps : Nat) :
    Option (List SenseiEvent × List EventFilter × Nat) :=
  match fuel with
  | 0 => if currentMs < timeoutMs then none else some (events, filters, sleeps)
  | fuel + 1 =>
    if currentMs < timeoutMs then
      match drainRound filters (arrivals.headD []) events with
      | (filters2, events2, true) => some (events2, filters2, sleeps)
      | (filters2, events2, false) =>
        wfeLoop fuel filters2 arrivals.tail events2 (currentMs + intervalMs)
          timeoutMs intervalMs (sleeps + 1)
    else some (events, filters, sleeps)

/-- ceil(a / b) for natural numbers (`(a + b - 1) / b`). -/
def ceilDiv (a b : Nat) : Nat := (a + b - 1) / b

/-- channels.rs lines 52-81: `wait_for_events`.  When `interval_ms > 0`
the Rust loop performs exactly `ceilDiv timeout_ms interval_ms` outer
iterations, which is the fuel supplied here; `none` therefore occurs
exactly when the Rust function would never terminate (interval 0 with a
positive timeout). -/
def wait_for_events (filters : List EventFilter)
    (arrivals : List (List SenseiEvent)) (timeout_ms interval_ms : Nat) :
    Option (List SenseiEvent × List EventFilter × Nat) :=
  wfeLoop (ceilDiv timeout_ms interval_ms) filters arrivals [] 0
    timeout_ms interval_ms 0

/-- services/node.rs `OpenChannelRequest` (fields as used by channels.rs):
counterparty pubkey (string-encoded), optional host:port, channel value in
sats, optional push amount in msats, optional caller-supplied correlation
id (`custom_id`, u64).  Per-request channel-config overrides
(`request.into()`, line 254) play no role in any claim and are omitted. -/
structure OpenChannelRequest where
  counterparty_pubkey : String
  counterparty_host_port : Option String
  amount_sats : Nat
  push_amount_msats : Option Nat
  custom_id : Option Nat
  deriving Repr, DecidableEq

/-- The finalized funding transaction, opaque except for its txid
(channels.rs line 200 `funding_tx.txid()`). -/
structure Tx where
  txid : Nat
  deriving Repr, DecidableEq

/-- Result of a Rust call that can panic: `abort` models a panic
(`expect` / `unwrap` / `panic!`), which unwinds the whole batch call. -/
inductive Outcome (α : Type) where
  | ok (a : α)
  | abort (msg : String)
  deriving Repr, DecidableEq

/-- Rust `Result::is_ok()` on a per-request result. -/
def isOkE : Except Error Tcid → Bool
  | Except.ok _ => true
  | Except.error _ => false

/-- Whether an `Outcome` is a modelled panic. -/
def isAbort {α : Type} : Outcome α → Bool
  | Outcome.ok _ => false
  | Outcome.abort _ => true

/-- The external collaborators of `ChannelOpener` (channels.rs lines
21-29), modelled as pure oracles:
* `parsePubkey` — `parse_pubkey` (line 224), `none` = parse failure;
* `connectedPeers` — `peer_manager.get_peer_node_ids()` (line 227);
* `parseAddr` — `parse_peer_addr` (line 231), `none` = parse failure;
* `connectOk` — `connect_peer_if_necessary` (line 234), `false` = failure;
* `createChannel` — `channel_manager.create_channel` (line 249), taking
  pubkey, amount_sats, push_msats, custom id; the `e.into()` conversion of
  the LDK error into `Error` is folded into the oracle;
* `arrivals` — events the broadcast receiver delivers per poll round;
* `feeSatsPer1000Wu` — `get_est_sat_per_1000_weight` (line 168), a u32;
* `buildSign` — the wallet build/sign/extract pipeline (lines 164-192):
  given the recipients `(output_script, value)` in insertion order and the
  fee rate, `none` models an `unwrap` panic in `finish()` or `sign()`;
* `ftg` — `channel_manager.funding_transaction_generated` (line 207). -/
structure Env where
  node_id : String
  parsePubkey : String → Option Nat
  connectedPeers : List Nat
  parseAddr : String → Option Nat
  connectOk : Nat → Nat → Bool
  createChannel : Nat → Nat → Nat → Nat → Except Error Tcid
  arrivals : List (List SenseiEvent)
  feeSatsPer1000Wu : Nat
  buildSign : List (Nat × Nat) → Rat → Option Tx
  ftg : Tcid → Nat → Tx → Except Nat Unit

/-- channels.rs lines 222-268: `initiate_channel_open`.  The pubkey parse,
the missing-address check, the address parse and the connection attempt
all panic on failure (`expect` / `unwrap_or_else(panic!)`); only a
`create_channel` rejection is returned as a typed per-request error.
`custom_id` is always `Some` here because `open_batch` assigns it first;
`getD 0` stands for that guaranteed `unwrap`. -/
def initiate_channel_open (env : Env) (request : OpenChannelRequest) :
    Outcome (Except Error Tcid) :=
  match env.parsePubkey request.counterparty_pubkey with
  | none => Outcome.abort "failed to parse pubkey"
  | some counterpartyPubkey =>
    let alreadyConnected := env.connectedPeers.contains counterpartyPubkey
    let connectStep : Outcome Unit :=
      if alreadyConnected then Outcome.ok ()
      else
        match request.counterparty_host_port with
        | none =>
          Outcome.abort
            "you must provide connection information if you are not already connected to a peer"
        | some hostPort =>
          match env.parseAddr hostPort with
          | none => Outcome.abort "failed to parse host port for counterparty"
          | some addr =>
            if env.connectOk counterpartyPubkey addr then Outcome.ok ()
            else Outcome.abort "failed to connect to peer"
    match connectStep with
    | Outcome.abort m => Outcome.abort m
    | Outcome.ok _ =>
      match env.createChannel counterpartyPubkey request.amount_sats
          (request.push_amount_msats.getD 0) (request.custom_id.getD 0) with
      | Except.ok shortChannelId => Outcome.ok (Except.ok shortChannelId)
      | Except.error e => Outcome.ok (Except.error e)

/-- channels.rs lines 87-97: fill in missing `custom_id`s.  `gen k` is the
value `thread_rng().gen_range(1..u64::MAX)` returns for the request at
position `k`; the random stream is a parameter of the model, constrained
only by the `gen_range` contract `1 <= gen k < u64::MAX` where a claim
needs it. -/
def assignIdsFrom (gen : Nat → Nat) (k : Nat) :
    List OpenChannelRequest → List OpenChannelRequest
  | [] => []
  | r :: rest =>
    { r with custom_id := some (r.custom_id.getD (gen k)) } ::
      assignIdsFrom gen (k + 1) rest

/-- The id-assignment pass over the whole batch (channels.rs lines 87-97). -/
def assignIds (gen : Nat → Nat) (requests : List OpenChannelRequest) :
    List OpenChannelRequest :=
  assignIdsFrom gen 0 requests

/-- channels.rs lines 107-120: the wait filter built for one successfully
initiated request: accept a `FundingGenerationReady` for this node whose
`user_channel_id` equals the request's assigned id. -/
def mkFilter (filterNodeId : String) (requestUserChannelId : Nat) : EventFilter :=
  ⟨fun event =>
    match event with
    | SenseiEvent.fundingGenerationReady node_id user_channel_id _ _ _ =>
      node_id == filterNodeId && user_channel_id == requestUserChannelId
    | _ => false⟩

/-- channels.rs lines 101-125: the initiation loop.  Initiates each
request in order; a panic inside `initiate_channel_open` aborts the whole
batch; a success pushes a wait filter; each request is paired with its
initiation result. -/
def initiateAll (env : Env) :
    List OpenChannelRequest →
    Outcome (List (OpenChannelRequest × Except Error Tcid) × List EventFilter)
  | [] => Outcome.ok ([], [])
  | r :: rest =>
    match initiate_channel_open env r with
    | Outcome.abort m => Outcome.abort m
    | Outcome.ok res =>
      match initiateAll env rest with
      | Outcome.abort m => Outcome.abort m
      | Outcome.ok (pairs, filters) =>
        let filters2 :=
          match res with
          | Except.ok _ => mkFilter env.node_id (r.custom_id.getD 0) :: filters
          | Except.error _ => filters
        Outcome.ok ((r, res) :: pairs, filters2)

/-- channels.rs lines 136-149: the reclassification predicate — an event
matches a request iff it is `FundingGenerationReady` and its
`user_channel_id` equals `request.custom_id.unwrap()` (no node-id check
here, unlike the wait filter). -/
def evMatches (request : OpenChannelRequest) (event : SenseiEvent) : Bool :=
  match event with
  | SenseiEvent.fundingGenerationReady _ user_channel_id _ _ _ =>
    user_channel_id == request.custom_id.getD 0
  | _ => false

/-- The counterparty node id carried by a funding-ready event
(channels.rs line 144 records it from the matching event). -/
def cpOf : SenseiEvent → Option Nat
  | SenseiEvent.fundingGenerationReady _ _ counterparty _ _ => some counterparty
  | _ => none

/-- channels.rs lines 131-159, one entry: an `Ok` initiation result whose
id matches no collected event becomes `Err(FundingGenerationNeverHappened)`;
a matched one keeps its result and records the counterparty node id of the
first matching event (the source records it by mutating an `Option` from
inside the `find` closure, which sets it exactly when the closure returns
true, i.e. from the event `find` stops at). -/
def reclassEntry (events : List SenseiEvent)
    (p : OpenChannelRequest × Except Error Tcid) :
    OpenChannelRequest × Except Error Tcid × Option Nat :=
  match p with
  | (r, Except.ok t) =>
    match events.find? (fun e => evMatches r e) with
    | some e => (r, Except.ok t, cpOf e)
    | none => (r, Except.error Error.fundingGenerationNeverHappened, none)
  | (r, Except.error err) => (r, Except.error err, none)

/-- channels.rs lines 131-159: the reclassification map over the batch. -/
def reclassify (events : List SenseiEvent)
    (pairs : List (OpenChannelRequest × Except Error Tcid)) :
    List (OpenChannelRequest × Except Error Tcid × Option Nat) :=
  pairs.map (reclassEntry events)

/-- channels.rs lines 171-176: fee-unit conversion from sat per 1000
weight units to sat/vByte.  The u32 native rate 253 is special-cased to
exactly 1.0; every other value is divided by 250.0.  The `f32` arithmetic
is modelled exactly over `Rat` (the division is exact for every value any
claim mentions). -/
def satPerVbOf (feeSatsPer1000Wu : Nat) : Rat :=
  if feeSatsPer1000Wu = 253 then 1 else (feeSatsPer1000Wu : Rat) / 250

/-- channels.rs lines 178-187: one recipient `(output_script, value)` per
collected funding-ready event, in event order. -/
def fundingRecipients (events : List SenseiEvent) : List (Nat × Nat) :=
  events.filterMap fun e =>
    match e with
    | SenseiEvent.fundingGenerationReady _ _ _ value script => some (script, value)
    | _ => none

/-- The events `open_batch` collects: channels.rs line 128 calls
`wait_for_events(filters, 30000, 500)`.  The `getD` default is dead code:
with interval 500 > 0 the fuel is provably sufficient. -/
def batchEvents (env : Env) (filters : List EventFilter) : List SenseiEvent :=
  ((wait_for_events filters env.arrivals 30000 500).getD ([], [], 0)).1

/-- channels.rs lines 202-218, one entry of the completion dispatch:
an `Ok` request calls `funding_transaction_generated` with its temporary
channel id, the recorded counterparty and the shared transaction; an LDK
rejection becomes `Err(LdkApi(e))`; error entries pass through.  The
`counterparty_node_id.unwrap()` of line 206 is modelled by `dispatchAll`
below; here `getD 0` is only reached with `some`. -/
def dispatchEntry (env : Env) (tx : Tx)
    (t : OpenChannelRequest × Except Error Tcid × Option Nat) :
    OpenChannelRequest × Except Error Tcid :=
  match t with
  | (r, Except.ok tcid, cp) =>
    match env.ftg tcid (cp.getD 0) tx with
    | Except.ok _ => (r, Except.ok tcid)
    | Except.error e => (r, Except.error (Error.ldkApi e))
  | (r, Except.error e, _) => (r, Except.error e)

/-- channels.rs lines 202-219: the completion-dispatch map, including the
`counterparty_node_id.unwrap()` panic (line 206), which fires on the first
entry whose result is `Ok` but whose recorded counterparty is `none`. -/
def dispatchAll (env : Env) (tx : Tx) :
    List (OpenChannelRequest × Except Error Tcid × Option Nat) →
    Outcome (List (OpenChannelRequest × Except Error Tcid))
  | [] => Outcome.ok []
  | (_, Except.ok _, none) :: _ =>
    Outcome.abort "called Option unwrap on a None value"
  | (r, Except.ok tcid, some c) :: rest =>
    match dispatchAll env tx rest with
    | Outcome.abort m => Outcome.abort m
    | Outcome.ok l =>
      Outcome.ok (dispatchEntry env tx (r, Except.ok tcid, some c) :: l)
  | (r, Except.error e, cp) :: rest =>
    match dispatchAll env tx rest with
    | Outcome.abort m => Outcome.abort m
    | Outcome.ok l =>
      Outcome.ok (dispatchEntry env tx (r, Except.error e, cp) :: l)

/-- The value `open_batch` produces when no panic occurs: one
`(request, result)` pair per input request, plus the observable
`set_debounce(txid, channels_to_open)` registration (channels.rs lines
199-200; in the source the registration happens just before the dispatch
loop runs). -/
structure BatchResult where
  results : List (OpenChannelRequest × Except Error Tcid)
  debounceTxid : Nat
  debounceCount : Nat
  deriving Repr, DecidableEq

/-- channels.rs lines 160-219: everything after the initiation loop —
event collection, reclassification, wallet build/sign (its `unwrap`s are
the `none` branch), debounce registration with the count of results still
`Ok` after reclassification, and completion dispatch. -/
def openBatchRest (env : Env)
    (requestsWithResults : List (OpenChannelRequest × Except Error Tcid))
    (filters : List EventFilter) : Outcome BatchResult :=
  match env.buildSign (fundingRecipients (batchEvents env filters))
      (satPerVbOf env.feeSatsPer1000Wu) with
  | none => Outcome.abort "called Result unwrap on an Err value"
  | some fundingTx =>
    match dispatchAll env fundingTx
        (reclassify (batchEvents env filters) requestsWithResults) with
    | Outcome.abort m => Outcome.abort m
    | Outcome.ok results =>
      Outcome.ok
        { results := results
          debounceTxid := fundingTx.txid
          debounceCount :=
            (List.filter (fun t => isOkE t.2.1)
              (reclassify (batchEvents env filters) requestsWithResults)).length }

/-- channels.rs lines 83-220: `open_batch`. -/
def open_batch (env : Env) (gen : Nat → Nat)
    (requests : List OpenChannelRequest) : Outcome BatchResult :=
  match initiateAll env (assignIds gen requests) with
  | Outcome.abort m => Outcome.abort m
  | Outcome.ok (requestsWithResults, filters) =>
    openBatchRest env requestsWithResults filters

/-! ### Concrete instances used by witnesses and counterexamples -/

/-- A funding-ready event for node "n1", correlation id 9, counterparty 77,
value 1000 sats, output script 5. -/
def happyEvent : SenseiEvent :=
  SenseiEvent.fundingGenerationReady "n1" 9 77 1000 5

/-- A request to an already-connected peer, with caller-supplied
correlation id 9. -/
def happyReqA : OpenChannelRequest :=
  { counterparty_pubkey := "pk", counterparty_host_port := none,
    amount_sats := 1000, push_amount_msats := none, custom_id := some 9 }

/-- A request with no caller-supplied correlation id. -/
def noIdReq : OpenChannelRequest := { happyReqA with custom_id := none }

/-- Environment where everything succeeds and the funding-ready event for
`happyReqA` arrives in the first poll round. -/
def happyEnv : Env :=
  { node_id := "n1"
    parsePubkey := fun _ => some 1
    connectedPeers := [1]
    parseAddr := fun _ => some 0
    connectOk := fun _ _ => true
    createChannel := fun _ _ _ _ => Except.ok 7
    arrivals := [[happyEvent]]
    feeSatsPer1000Wu := 253
    buildSign := fun _ _ => some ⟨42⟩
    ftg := fun _ _ _ => Except.ok () }

/-- Like `happyEnv` but no event ever arrives on the bus. -/
def noEventEnv : Env := { happyEnv with arrivals := [] }

/-- Like `happyEnv` but the peer is not connected and only the address
string "good" parses. -/
def parseFailEnv : Env :=
  { happyEnv with
    connectedPeers := []
    parseAddr := fun s => if s = "good" then some 5 else none }

/-- A request carrying a parseable address. -/
def goodAddrReq : OpenChannelRequest :=
  { happyReqA with counterparty_host_port := some "good" }

/-- A request carrying a malformed address, correlation id 11. -/
def badAddrReq : OpenChannelRequest :=
  { happyReqA with counterparty_host_port := some "bad", custom_id := some 11 }

/-- Like `happyEnv` but the wallet build/sign step fails (the source
`unwrap`s the failure). -/
def signFailEnv : Env := { happyEnv with buildSign := fun _ _ => none }

/-- Like `happyEnv` but the protocol engine rejects the initiation with a
typed error. -/
def ccFailEnv : Env :=
  { happyEnv with createChannel := fun _ _ _ _ => Except.error (Error.other 3) }

/-! ### Arithmetic helpers for the poll loop -/

/-- Running `ceilDiv t i` poll rounds of length `i` covers the timeout `t`. -/
theorem ceilDiv_mul_ge (t i : Nat) (hi : 0 < i) : t ≤ ceilDiv t i * i := by
  have hmod : (t + i - 1) % i < i := Nat.mod_lt _ hi
  have hdm := Nat.div_add_mod (t + i - 1) i
  unfold ceilDiv
  rw [Nat.mul_comm]
  omega

/-- Peeling one poll round off a ceiling division: with `0 < m` rounds of
work left, one round of length `i` leaves `m - i`. -/
theorem ceilDiv_succ_peel (m i : Nat) (hi : 0 < i) (hm : 0 < m) :
    (m + i - 1) / i = (m - i + i - 1) / i + 1 := by
  by_cases him : i ≤ m
  · have h1 : m + i - 1 = (m - 1) + i := by omega
    have h2 : m - i + i - 1 = m - 1 := by omega
    rw [h1, h2, Nat.add_div_right _ hi]
  · have h1 : m + i - 1 = (m - 1) + i := by omega
    have h2 : m - i + i - 1 = i - 1 := by omega
    rw [h1, h2, Nat.add_div_right _ hi, Nat.div_eq_of_lt (by omega),
      Nat.div_eq_of_lt (by omega)]

/-! ### swapRemove and findFirstIdx -/

/-- A `swapRemove` at a valid index removes exactly one element. -/
theorem swapRemove_length {α : Type} (l : List α) (i : Nat) (h : i < l.length) :
    (swapRemove l i).length + 1 = l.length := by
  have hne : l ≠ [] :=
    List.ne_nil_of_length_pos (Nat.lt_of_le_of_lt (Nat.zero_le i) h)
  have h1 : l.get? i = some (l.get ⟨i, h⟩) := List.get?_eq_get h
  have h2 : l.getLast? = some (l.getLast hne) :=
    List.getLast?_eq_getLast_of_ne_nil hne
  have h3 : 1 ≤ l.length := Nat.lt_of_le_of_lt (Nat.zero_le i) h
  simp only [swapRemove, h1, h2, List.length_dropLast, List.length_set]
  omega

/-- A `swapRemove` only ever removes elements. -/
theorem swapRemove_subset {α : Type} (l : List α) (i : Nat) :
    swapRemove l i ⊆ l := by
  unfold swapRemove
  split
  · next a last hg hl =>
    intro x hx
    have hx1 : x ∈ l.set i last := by
      rw [List.dropLast_eq_take] at hx
      exact List.take_subset _ _ hx
    rcases List.mem_or_eq_of_mem_set hx1 with h | h
    · exact h
    · subst h
      have hne : l ≠ [] := by
        intro he
        subst he
        simp at hl
      have h2 := List.getLast?_eq_getLast_of_ne_nil hne
      rw [h2] at hl
      cases hl
      exact List.getLast_mem hne
  · exact fun x hx => hx

/-- A successful `findFirstIdx` returns an in-range index. -/
theorem findFirstIdx_lt {α : Type} (p : α → Bool) :
    ∀ (l : List α) (i : Nat), findFirstIdx p l = some i → i < l.length
  | [], i, h => by simp [findFirstIdx] at h
  | a :: rest, i, h => by
    by_cases hp : p a
    · simp [findFirstIdx, hp] at h
      simp [← h]
    · simp [findFirstIdx, hp] at h
      obtain ⟨j, hj, rfl⟩ := h
      have := findFirstIdx_lt p rest j hj
      simp
      omega

/-- A successful `findFirstIdx` means some element satisfies the predicate. -/
theorem findFirstIdx_exists {α : Type} (p : α → Bool) :
    ∀ (l : List α) (i : Nat), findFirstIdx p l = some i → ∃ x ∈ l, p x = true
  | [], i, h => by simp [findFirstIdx] at h
  | a :: rest, i, h => by
    by_cases hp : p a
    · exact ⟨a, List.mem_cons_self a rest, hp⟩
    · simp [findFirstIdx, hp] at h
      obtain ⟨j, hj, rfl⟩ := h
      obtain ⟨x, hx, hpx⟩ := findFirstIdx_exists p rest j hj
      exact ⟨x, List.mem_cons_of_mem a hx, hpx⟩

/-! ### drainRound: conservation of filters and events -/

/-- One drain round retires exactly one filter per recorded event, never
invents filters, and every event it records was accepted by one of the
round's starting filters. -/
theorem drainRound_spec :
    ∀ (pending : List SenseiEvent) (filters : List EventFilter)
      (acc : List SenseiEvent) (f2 : List EventFilter)
      (a2 : List SenseiEvent) (early : Bool),
      drainRound filters pending acc = (f2, a2, early) →
      a2.length + f2.length = acc.length + filters.length ∧
        f2 ⊆ filters ∧
        ∀ e ∈ a2, e ∈ acc ∨ ∃ filt ∈ filters, filt.f e = true
  | [], filters, acc, f2, a2, early, h => by
    simp only [drainRound] at h
    cases h
    exact ⟨by omega, fun x hx => hx, fun x hx => Or.inl hx⟩
  | e :: rest, filters, acc, f2, a2, early, h => by
    simp only [drainRound] at h
    cases hidx : findFirstIdx (fun filt => filt.f e) filters with
    | some i =>
      rw [hidx] at h
      dsimp only at h
      have hi : i < filters.length := findFirstIdx_lt _ filters i hidx
      have hex : ∃ x ∈ filters, x.f e = true := findFirstIdx_exists _ filters i hidx
      have hlen := swapRemove_length filters i hi
      have hsub := swapRemove_subset filters i
      by_cases hemp : (swapRemove filters i).isEmpty
      · rw [if_pos hemp] at h
        cases h
        refine ⟨by simp; omega, hsub, ?_⟩
        intro x hx
        rcases List.mem_append.mp hx with hx | hx
        · exact Or.inl hx
        · simp at hx
          subst hx
          exact Or.inr hex
      · rw [if_neg hemp] at h
        have IH := drainRound_spec rest (swapRemove filters i) (acc ++ [e])
          f2 a2 early h
        refine ⟨?_, fun x hx => hsub (IH.2.1 hx), ?_⟩
        · have h1 := IH.1
          simp at h1
          omega
        · intro x hx
          rcases IH.2.2 x hx with hx2 | ⟨filt, hf, hfe⟩
          · rcases List.mem_append.mp hx2 with h3 | h3
            · exact Or.inl h3
            · simp at h3
              subst h3
              exact Or.inr hex
          · exact Or.inr ⟨filt, hsub hf, hfe⟩
    | none =>
      rw [hidx] at h
      dsimp only at h
      by_cases hemp : filters.isEmpty
      · rw [if_pos hemp] at h
        cases h
        exact ⟨by omega, fun x hx => hx, fun x hx => Or.inl hx⟩
      · rw [if_neg hemp] at h
        have IH := drainRound_spec rest filters acc f2 a2 early h
        exact ⟨IH.1, IH.2.1, IH.2.2⟩

/-! ### wfeLoop lemmas -/

/-- Fuel covering the remaining time suffices: the loop finishes. -/
theorem wfeLoop_isSome :
    ∀ (fuel : Nat) (filters : List EventFilter)
      (arrivals : List (List SenseiEvent)) (events : List SenseiEvent)
      (c t i s : Nat), t ≤ c + fuel * i →
      (wfeLoop fuel filters arrivals events c t i s).isSome = true
  | 0, filters, arrivals, events, c, t, i, s, h => by
    simp only [wfeLoop]
    rw [if_neg (by omega)]
    rfl
  | fuel + 1, filters, arrivals, events, c, t, i, s, h => by
    simp only [wfeLoop]
    by_cases hc : c < t
    · rw [if_pos hc]
      rcases hd : drainRound filters (arrivals.headD []) events with ⟨f2, a2, early⟩
      cases early
      · exact wfeLoop_isSome fuel f2 arrivals.tail a2 (c + i) t i (s + 1)
          (by have := Nat.add_mul fuel 1 i; omega)
      · rfl
    · rw [if_neg hc]
      rfl

/-- Conservation through the whole wait loop: one retired filter per
collected event, remaining filters are a subset of the originals, and
every collected event was accepted by an original filter. -/
theorem wfeLoop_spec :
    ∀ (fuel : Nat) (filters : List EventFilter)
      (arrivals : List (List SenseiEvent)) (events ev2 : List SenseiEvent)
      (rem : List EventFilter) (c t i s sl : Nat),
      wfeLoop fuel filters arrivals events c t i s = some (ev2, rem, sl) →
      ev2.length + rem.length = events.length + filters.length ∧
        rem ⊆ filters ∧
        ∀ e ∈ ev2, e ∈ events ∨ ∃ filt ∈ filters, filt.f e = true
  | 0, filters, arrivals, events, ev2, rem, c, t, i, s, sl, h => by
    simp only [wfeLoop] at h
    by_cases hc : c < t
    · rw [if_pos hc] at h
      cases h
    · rw [if_neg hc] at h
      cases h
      exact ⟨by omega, fun x hx => hx, fun x hx => Or.inl hx⟩
  | fuel + 1, filters, arrivals, events, ev2, rem, c, t, i, s, sl, h => by
    simp only [wfeLoop] at h
    by_cases hc : c < t
    · rw [if_pos hc] at h
      rcases hd : drainRound filters (arrivals.headD []) events with ⟨f2, a2, early⟩
      rw [hd] at h
      have hds := drainRound_spec (arrivals.headD []) filters events f2 a2 early hd
      cases early
      · dsimp only at h
        have IH := wfeLoop_spec fuel f2 arrivals.tail a2 ev2 rem
          (c + i) t i (s + 1) sl h
        refine ⟨by omega, fun x hx => hds.2.1 (IH.2.1 hx), ?_⟩
        intro x hx
        rcases IH.2.2 x hx with hx2 | ⟨filt, hf, hfe⟩
        · rcases hds.2.2 x hx2 with h3 | ⟨filt, hf, hfe⟩
          · exact Or.inl h3
          · exact Or.inr ⟨filt, hf, hfe⟩
        · exact Or.inr ⟨filt, hds.2.1 hf, hfe⟩
      · dsimp only at h
        cases h
        exact ⟨hds.1, hds.2.1, hds.2.2⟩
    · rw [if_neg hc] at h
      cases h
      exact ⟨by omega, fun x hx => hx, fun x hx => Or.inl hx⟩

/-- With no filters and at least one event pending in the first round, the
loop returns before its first sleep (channels.rs line 73 fires on the
first drained event). -/
theorem wfeLoop_nil_filters_immediate (fuel : Nat)
    (arrivals : List (List SenseiEvent)) (events : List SenseiEvent)
    (c t i s : Nat) (hc : c < t) (hfuel : 0 < fuel)
    (hhd : arrivals.headD [] ≠ []) :
    wfeLoop fuel [] arrivals events c t i s = some (events, [], s) := by
  rcases fuel with _ | fuel
  · omega
  · simp only [wfeLoop]
    rw [if_pos hc]
    rcases hp : arrivals.headD [] with _ | ⟨e, rest⟩
    · exact absurd hp hhd
    · simp [drainRound, findFirstIdx]

/-- With no filters and an empty bus, the loop sleeps through every poll
round of the timeout (the empty-filter check sits inside the drain loop,
channels.rs line 73, so it is never reached). -/
theorem wfeLoop_nil_filters_sleeps :
    ∀ (fuel : Nat) (arrivals : List (List SenseiEvent))
      (events : List SenseiEvent) (c t i s : Nat), 0 < i →
      (∀ l ∈ arrivals, l = []) → t ≤ c + fuel * i →
      wfeLoop fuel [] arrivals events c t i s =
        some (events, [], s + (t - c + i - 1) / i)
  | 0, arrivals, events, c, t, i, s, hi, hall, hb => by
    simp only [wfeLoop]
    rw [if_neg (by omega)]
    have h0 : t - c + i - 1 = i - 1 := by omega
    rw [h0, Nat.div_eq_of_lt (by omega)]
    rfl
  | fuel + 1, arrivals, events, c, t, i, s, hi, hall, hb => by
    simp only [wfeLoop]
    by_cases hc : c < t
    · rw [if_pos hc]
      have hhd : arrivals.headD [] = [] := by
        rcases arrivals with _ | ⟨l, ls⟩
        · rfl
        · exact hall l (List.mem_cons_self l ls)
      rw [hhd]
      dsimp only [drainRound]
      have htail : ∀ l ∈ arrivals.tail, l = [] := by
        intro l hl
        rcases arrivals with _ | ⟨l0, ls⟩
        · simp at hl
        · exact hall l (List.mem_cons_of_mem l0 hl)
      rw [wfeLoop_nil_filters_sleeps fuel arrivals.tail events (c + i) t i
        (s + 1) hi htail (by have := Nat.add_mul fuel 1 i; omega)]
      have harith : s + (t - c + i - 1) / i = s + 1 + (t - (c + i) + i - 1) / i := by
        have hm : 0 < t - c := by omega
        have hsub : t - (c + i) = (t - c) - i := by omega
        rw [hsub, ceilDiv_succ_peel (t - c) i hi hm]
        omega
      rw [harith]
    · rw [if_neg hc]
      have h0 : t - c + i - 1 = i - 1 := by omega
      rw [h0, Nat.div_eq_of_lt (by omega)]
      rfl

/-- With a zero poll interval and a positive timeout, the loop never
terminates for a filter that never matches: every fuel budget runs out.
This is the non-termination witness for interval 0. -/
theorem wfeLoop_zero_interval :
    ∀ (fuel s : Nat),
      wfeLoop fuel [⟨fun _ => false⟩] [] [] 0 1 0 s = none
  | 0, s => by simp [wfeLoop]
  | fuel + 1, s => by
    simp only [wfeLoop]
    rw [if_pos (by omega)]
    exact wfeLoop_zero_interval fuel (s + 1)

/-! ### Stage lemmas: initiation, reclassification, dispatch -/

/-- The pass `assignIdsFrom` preserves the number of requests. -/
theorem assignIdsFrom_length (gen : Nat → Nat) :
    ∀ (k : Nat) (l : List OpenChannelRequest),
      (assignIdsFrom gen k l).length = l.length
  | _, [] => rfl
  | k, r :: rest => by
    simp [assignIdsFrom, assignIdsFrom_length gen (k + 1) rest]

/-- Position-wise description of the id-assignment pass. -/
theorem assignIdsFrom_get? (gen : Nat → Nat) :
    ∀ (l : List OpenChannelRequest) (k i : Nat),
      (assignIdsFrom gen k l).get? i =
        (l.get? i).map
          (fun r => { r with custom_id := some (r.custom_id.getD (gen (k + i))) })
  | [], k, i => by simp [assignIdsFrom]
  | r :: rest, k, 0 => by simp [assignIdsFrom]
  | r :: rest, k, i + 1 => by
    simp only [assignIdsFrom, List.get?]
    rw [assignIdsFrom_get? gen rest (k + 1) i]
    have harith : k + 1 + i = k + (i + 1) := by omega
    rw [harith]

/-- If any request in the list makes `initiate_channel_open` panic, the
whole initiation loop panics. -/
theorem initiateAll_abort (env : Env) :
    ∀ (requests : List OpenChannelRequest) (r : OpenChannelRequest),
      r ∈ requests → isAbort (initiate_channel_open env r) = true →
      isAbort (initiateAll env requests) = true
  | [], r, hr, _ => by simp at hr
  | r0 :: rest, r, hr, hab => by
    unfold initiateAll
    cases hi : initiate_channel_open env r0 with
    | abort m => simp [isAbort]
    | ok res =>
      rcases List.mem_cons.mp hr with rfl | hr2
      · rw [hi] at hab
        simp [isAbort] at hab
      · have IH := initiateAll_abort env rest r hr2 hab
        cases h2 : initiateAll env rest with
        | abort m => simp [isAbort]
        | ok p =>
          rw [h2] at IH
          simp [isAbort] at IH

/-- A completed initiation loop pairs each request, in order, with the
typed result its own `initiate_channel_open` call returned. -/
theorem initiateAll_get (env : Env) :
    ∀ (requests : List OpenChannelRequest)
      (pairs : List (OpenChannelRequest × Except Error Tcid))
      (filters : List EventFilter) (i : Nat) (r : OpenChannelRequest),
      initiateAll env requests = Outcome.ok (pairs, filters) →
      requests.get? i = some r →
      ∃ res, initiate_channel_open env r = Outcome.ok res ∧
        pairs.get? i = some (r, res)
  | [], pairs, filters, i, r, h, hg => by simp at hg
  | r0 :: rest, pairs, filters, i, r, h, hg => by
    unfold initiateAll at h
    cases hi : initiate_channel_open env r0 with
    | abort m =>
      rw [hi] at h
      simp at h
    | ok res0 =>
      rw [hi] at h
      cases h2 : initiateAll env rest with
      | abort m =>
        rw [h2] at h
        simp at h
      | ok p =>
        rcases p with ⟨pairs2, filters2⟩
        rw [h2] at h
        dsimp only at h
        have hp : pairs = (r0, res0) :: pairs2 := by
          cases h
          rfl
        cases i with
        | zero =>
          simp at hg
          subst hg
          exact ⟨res0, hi, by simp [hp]⟩
        | succ n =>
          simp only [List.get?] at hg
          obtain ⟨res, hres, hget⟩ :=
            initiateAll_get env rest pairs2 filters2 n r h2 hg
          exact ⟨res, hres, by rw [hp]; exact hget⟩

/-- A completed initiation loop keeps exactly the input requests as the
first components, in order. -/
theorem initiateAll_fst (env : Env) :
    ∀ (requests : List OpenChannelRequest)
      (pairs : List (OpenChannelRequest × Except Error Tcid))
      (filters : List EventFilter),
      initiateAll env requests = Outcome.ok (pairs, filters) →
      pairs.map Prod.fst = requests
  | [], pairs, filters, h => by
    unfold initiateAll at h
    cases h
    rfl
  | r0 :: rest, pairs, filters, h => by
    unfold initiateAll at h
    cases hi : initiate_channel_open env r0 with
    | abort m =>
      rw [hi] at h
      simp at h
    | ok res0 =>
      rw [hi] at h
      cases h2 : initiateAll env rest with
      | abort m =>
        rw [h2] at h
        simp at h
      | ok p =>
        rcases p with ⟨pairs2, filters2⟩
        rw [h2] at h
        dsimp only at h
        have hp : pairs = (r0, res0) :: pairs2 := by
          cases h
          rfl
        rw [hp]
        simp [initiateAll_fst env rest pairs2 filters2 h2]

/-- Reclassification never changes which request an entry is about. -/
theorem reclassEntry_fst (events : List SenseiEvent)
    (p : OpenChannelRequest × Except Error Tcid) :
    (reclassEntry events p).1 = p.1 := by
  rcases p with ⟨r, res⟩
  cases res with
  | ok t =>
    simp only [reclassEntry]
    cases events.find? (fun e => evMatches r e) <;> rfl
  | error e => rfl

/-- Dispatch never changes which request an entry is about. -/
theorem dispatchEntry_fst (env : Env) (tx : Tx)
    (t : OpenChannelRequest × Except Error Tcid × Option Nat) :
    (dispatchEntry env tx t).1 = t.1 := by
  rcases t with ⟨r, res, cp⟩
  cases res with
  | ok tcid =>
    simp only [dispatchEntry]
    cases env.ftg tcid (cp.getD 0) tx <;> rfl
  | error e => rfl

/-- An event accepted by the reclassification predicate is a funding-ready
event, so it carries a counterparty node id. -/
theorem cpOf_isSome_of_evMatches {r : OpenChannelRequest} {e : SenseiEvent}
    (h : evMatches r e = true) : (cpOf e).isSome = true := by
  cases e with
  | fundingGenerationReady n u c v s => rfl
  | other tag => simp [evMatches] at h

/-- channels.rs lines 131-159 establish: every entry still `Ok` after
reclassification has a recorded counterparty node id. -/
theorem reclassify_cp_isSome (events : List SenseiEvent)
    (pairs : List (OpenChannelRequest × Except Error Tcid)) :
    ∀ t ∈ reclassify events pairs, isOkE t.2.1 = true → t.2.2.isSome = true := by
  intro t ht hok
  rcases List.mem_map.mp ht with ⟨p, hp, rfl⟩
  rcases p with ⟨r, res⟩
  cases res with
  | error e => simp [reclassEntry, isOkE] at hok
  | ok tcid =>
    simp only [reclassEntry] at hok ⊢
    cases hf : events.find? (fun e => evMatches r e) with
    | none =>
      rw [hf] at hok
      simp [isOkE] at hok
    | some e =>
      dsimp only
      exact cpOf_isSome_of_evMatches (List.find?_some hf)

/-- If every `Ok` entry carries a counterparty id, the dispatch loop
cannot hit the `unwrap` panic. -/
theorem dispatchAll_not_abort (env : Env) (tx : Tx) :
    ∀ (ts : List (OpenChannelRequest × Except Error Tcid × Option Nat)),
      (∀ t ∈ ts, isOkE t.2.1 = true → t.2.2.isSome = true) →
      isAbort (dispatchAll env tx ts) = false
  | [], _ => rfl
  | (r, Except.ok tcid, none) :: rest, hinv => by
    have := hinv (r, Except.ok tcid, none) (List.mem_cons_self _ _) rfl
    simp at this
  | (r, Except.ok tcid, some c) :: rest, hinv => by
    have IH := dispatchAll_not_abort env tx rest
      (fun t ht h2 => hinv t (List.mem_cons_of_mem _ ht) h2)
    unfold dispatchAll
    cases h2 : dispatchAll env tx rest with
    | abort m =>
      rw [h2] at IH
      simp [isAbort] at IH
    | ok l => rfl
  | (r, Except.error e, cp) :: rest, hinv => by
    have IH := dispatchAll_not_abort env tx rest
      (fun t ht h2 => hinv t (List.mem_cons_of_mem _ ht) h2)
    unfold dispatchAll
    cases h2 : dispatchAll env tx rest with
    | abort m =>
      rw [h2] at IH
      simp [isAbort] at IH
    | ok l => rfl

/-- Non-panicking form of `dispatchAll_not_abort`. -/
theorem dispatchAll_ok_exists (env : Env) (tx : Tx)
    (ts : List (OpenChannelRequest × Except Error Tcid × Option Nat))
    (hinv : ∀ t ∈ ts, isOkE t.2.1 = true → t.2.2.isSome = true) :
    ∃ l, dispatchAll env tx ts = Outcome.ok l := by
  have h := dispatchAll_not_abort env tx ts hinv
  cases hd : dispatchAll env tx ts with
  | ok l => exact ⟨l, rfl⟩
  | abort m =>
    rw [hd] at h
    simp [isAbort] at h

/-- A completed dispatch loop is exactly the entry-wise dispatch map. -/
theorem dispatchAll_ok_map (env : Env) (tx : Tx) :
    ∀ (ts : List (OpenChannelRequest × Except Error Tcid × Option Nat))
      (l : List (OpenChannelRequest × Except Error Tcid)),
      dispatchAll env tx ts = Outcome.ok l →
      l = ts.map (dispatchEntry env tx)
  | [], l, h => by
    cases h
    rfl
  | (r, Except.ok tcid, none) :: rest, l, h => by
    cases h
  | (r, Except.ok tcid, some c) :: rest, l, h => by
    unfold dispatchAll at h
    cases h2 : dispatchAll env tx rest with
    | abort m =>
      rw [h2] at h
      cases h
    | ok l2 =>
      rw [h2] at h
      cases h
      simp [List.map, dispatchAll_ok_map env tx rest l2 h2]
  | (r, Except.error e, cp) :: rest, l, h => by
    unfold dispatchAll at h
    cases h2 : dispatchAll env tx rest with
    | abort m =>
      rw [h2] at h
      cases h
    | ok l2 =>
      rw [h2] at h
      cases h
      simp [List.map, dispatchAll_ok_map env tx rest l2 h2]

/-! ### open_batch inversion and independence lemmas -/

/-- The function `initiate_channel_open` reads nothing from the completion oracle. -/
theorem initiate_ftg_indep (env : Env) (g : Tcid → Nat → Tx → Except Nat Unit)
    (r : OpenChannelRequest) :
    initiate_channel_open { env with ftg := g } r = initiate_channel_open env r := rfl

/-- The initiation loop reads nothing from the completion oracle. -/
theorem initiateAll_ftg_indep (env : Env) (g : Tcid → Nat → Tx → Except Nat Unit) :
    ∀ requests, initiateAll { env with ftg := g } requests = initiateAll env requests
  | [] => rfl
  | r :: rest => by
    unfold initiateAll
    rw [initiate_ftg_indep, initiateAll_ftg_indep env g rest]

/-- Everything a successful `open_batch` run produces, in terms of its
stages: the initiation loop completed, the wallet produced a transaction
for the collected events, the returned results are the dispatch map over
the reclassified pairs, and the debounce registration carries that
transaction's id and the post-reclassification `Ok` count. -/
theorem open_batch_inv (env : Env) (gen : Nat → Nat)
    (requests : List OpenChannelRequest) (out : BatchResult)
    (h : open_batch env gen requests = Outcome.ok out) :
    ∃ pairs filters tx,
      initiateAll env (assignIds gen requests) = Outcome.ok (pairs, filters) ∧
      env.buildSign (fundingRecipients (batchEvents env filters))
          (satPerVbOf env.feeSatsPer1000Wu) = some tx ∧
      out.results =
        (reclassify (batchEvents env filters) pairs).map (dispatchEntry env tx) ∧
      out.debounceTxid = tx.txid ∧
      out.debounceCount =
        ((reclassify (batchEvents env filters) pairs).filter
          (fun t => isOkE t.2.1)).length := by
  unfold open_batch at h
  cases hinit : initiateAll env (assignIds gen requests) with
  | abort m =>
    rw [hinit] at h
    cases h
  | ok p =>
    rcases p with ⟨pairs, filters⟩
    rw [hinit] at h
    dsimp only at h
    unfold openBatchRest at h
    cases htx : env.buildSign (fundingRecipients (batchEvents env filters))
        (satPerVbOf env.feeSatsPer1000Wu) with
    | none =>
      rw [htx] at h
      cases h
    | some tx =>
      rw [htx] at h
      dsimp only at h
      cases hd : dispatchAll env tx
          (reclassify (batchEvents env filters) pairs) with
      | abort m =>
        rw [hd] at h
        cases h
      | ok results =>
        rw [hd] at h
        dsimp only at h
        cases h
        exact ⟨pairs, filters, tx, rfl, htx,
          dispatchAll_ok_map env tx _ results hd, rfl, rfl⟩

/-- The pairs a successful `open_batch` returns are the id-assigned input
requests, in order. -/
theorem open_batch_results_fst (env : Env) (gen : Nat → Nat)
    (requests : List OpenChannelRequest) (out : BatchResult)
    (h : open_batch env gen requests = Outcome.ok out) :
    out.results.map Prod.fst = assignIds gen requests := by
  obtain ⟨pairs, filters, tx, hinit, htx, hres, _, _⟩ :=
    open_batch_inv env gen requests out h
  rw [hres, List.map_map]
  unfold reclassify
  rw [List.map_map]
  have hcongr :
      (Prod.fst ∘ dispatchEntry env tx) ∘ reclassEntry (batchEvents env filters) =
        fun p : OpenChannelRequest × Except Error Tcid => p.1 := by
    funext p
    simp [Function.comp, dispatchEntry_fst, reclassEntry_fst]
  rw [hcongr]
  exact initiateAll_fst env (assignIds gen requests) pairs filters hinit

/-- The per-entry `Ok` count after reclassification, phrased on the
initiation pairs: an entry counts iff its initiation succeeded and some
collected event matches its request. -/
theorem reclassify_count (events : List SenseiEvent) :
    ∀ (pairs : List (OpenChannelRequest × Except Error Tcid)),
      ((reclassify events pairs).filter (fun t => isOkE t.2.1)).length =
        (pairs.filter (fun p => isOkE p.2 &&
          events.any (fun e => evMatches p.1 e))).length
  | [] => rfl
  | (r, res) :: rest => by
    have IH := reclassify_count events rest
    cases res with
    | error err =>
      have h1 : reclassEntry events (r, Except.error err) =
          (r, Except.error err, none) := rfl
      simp only [reclassify, List.map, h1]
      rw [List.filter_cons_of_neg (by simp [isOkE]),
        List.filter_cons_of_neg (by simp [isOkE])]
      exact IH
    | ok tcid =>
      simp only [reclassify, List.map]
      cases hf : events.find? (fun e => evMatches r e) with
      | none =>
        have hany : events.any (fun e => evMatches r e) = false := by
          rw [List.any_eq_false]
          intro e he
          exact List.find?_eq_none.mp hf e he
        have h1 : reclassEntry events (r, Except.ok tcid) =
            (r, Except.error Error.fundingGenerationNeverHappened, none) := by
          simp [reclassEntry, hf]
        rw [h1, List.filter_cons_of_neg (by simp [isOkE]),
          List.filter_cons_of_neg (by simp [isOkE, hany])]
        exact IH
      | some e =>
        have hany : events.any (fun e2 => evMatches r e2) = true :=
          List.any_eq_true.mpr
            ⟨e, List.mem_of_find?_eq_some hf, List.find?_some hf⟩
        have h1 : reclassEntry events (r, Except.ok tcid) =
            (r, Except.ok tcid, cpOf e) := by
          simp [reclassEntry, hf]
        rw [h1, List.filter_cons_of_pos (by simp [isOkE]),
          List.filter_cons_of_pos (by simp [isOkE, hany])]
        simp only [List.length_cons]
        exact congrArg (fun n => n + 1) IH

/-! ### Claim C4: fee-rate conversion -/

/-- C4: fee-rate conversion from the estimator's native unit (sat per
1000 weight units) to sat/vByte: native rate 253 maps to exactly 1
(special-cased, not via the division), 500 maps to 2, 0 maps to 0, and
every other value is divided by 250. -/
theorem c4_fee_conversion :
    satPerVbOf 253 = 1 ∧ satPerVbOf 500 = 2 ∧ satPerVbOf 0 = 0 ∧
      ∀ n, n ≠ 253 → satPerVbOf n = (n : Rat) / 250 := by
  refine ⟨rfl, by norm_num [satPerVbOf], by norm_num [satPerVbOf], ?_⟩
  intro n hn
  simp [satPerVbOf, hn]

/-- C4 witness: the general division branch applied at native rate 100. -/
theorem c4_witness : satPerVbOf 100 = (100 : Rat) / 250 :=
  c4_fee_conversion.2.2.2 100 (by decide)

/-! ### Claim C10: termination of the wait loop -/

/-- C10: with a strictly positive poll interval the wait loop terminates
within ceil(timeout/interval) poll rounds (that fuel always suffices);
with interval 0 it never terminates for an unmatched filter (every fuel
budget runs out), so the positivity precondition is required. -/
theorem c10_termination :
    (∀ (filters : List EventFilter) (arrivals : List (List SenseiEvent))
        (t i : Nat), 0 < i →
        (wfeLoop (ceilDiv t i) filters arrivals [] 0 t i 0).isSome = true) ∧
      ∀ fuel, wfeLoop fuel [⟨fun _ => false⟩] [] [] 0 1 0 0 = none := by
  constructor
  · intro filters arrivals t i hi
    exact wfeLoop_isSome _ _ _ _ _ _ _ _
      (by have := ceilDiv_mul_ge t i hi; omega)
  · intro fuel
    exact wfeLoop_zero_interval fuel 0

/-- C10 witness: the single call site (channels.rs line 128) passes
timeout 30000 and interval 500, which satisfy the precondition; the loop
is bounded by ceilDiv 30000 500 = 60 rounds. -/
theorem c10_witness :
    (0 : Nat) < 500 ∧
      (wfeLoop (ceilDiv 30000 500) [] [] [] 0 30000 500 0).isSome = true :=
  ⟨by decide, c10_termination.1 [] [] 30000 500 (by decide)⟩

/-! ### Claim C2: empty filter set -/

/-- C2 counterexample: a call with an empty filter set and an empty bus
does not return immediately — it sleeps through all 60 poll rounds of the
30000 ms timeout, because the empty-set check (channels.rs line 73) sits
inside the drain loop and is never reached when no event is pending. -/
theorem c2_counterexample :
    wait_for_events [] [] 30000 500 = some ([], [], 60) ∧ (60 : Nat) ≠ 0 :=
  ⟨rfl, by decide⟩

/-- C2 (amended): a call with an empty filter set always returns an empty
result, but not necessarily immediately: it returns before the first
sleep only when at least one event is pending on the bus at entry; with
an empty bus it sleeps through all ceil(timeout/interval) poll rounds. -/
theorem c2_amended (arrivals : List (List SenseiEvent)) (t i : Nat)
    (hi : 0 < i) :
    ∃ sl, wait_for_events [] arrivals t i = some ([], [], sl) ∧
      (0 < t → arrivals.headD [] ≠ [] → sl = 0) ∧
      ((∀ l ∈ arrivals, l = []) → sl = ceilDiv t i) := by
  by_cases hA : 0 < t ∧ arrivals.headD [] ≠ []
  · have h1 := ceilDiv_mul_ge t i hi
    have hf : 0 < ceilDiv t i := by
      rcases Nat.eq_zero_or_pos (ceilDiv t i) with h0 | h0
      · rw [h0, Nat.zero_mul] at h1
        omega
      · exact h0
    refine ⟨0, ?_, fun _ _ => rfl, ?_⟩
    · unfold wait_for_events
      exact wfeLoop_nil_filters_immediate (ceilDiv t i) arrivals [] 0 t i 0
        hA.1 hf hA.2
    · intro hall
      exfalso
      rcases harr : arrivals with _ | ⟨l, ls⟩
      · rw [harr] at hA
        exact hA.2 rfl
      · rw [harr] at hA
        exact hA.2 (hall l (by rw [harr]; exact List.mem_cons_self l ls))
  · by_cases hall : ∀ l ∈ arrivals, l = []
    · refine ⟨ceilDiv t i, ?_, fun ht hhd => absurd ⟨ht, hhd⟩ hA, fun _ => rfl⟩
      unfold wait_for_events
      have hh := wfeLoop_nil_filters_sleeps (ceilDiv t i) arrivals [] 0 t i 0
        hi hall (by have := ceilDiv_mul_ge t i hi; omega)
      simpa [ceilDiv] using hh
    · have hs := wfeLoop_isSome (ceilDiv t i) [] arrivals [] 0 t i 0
        (by have := ceilDiv_mul_ge t i hi; omega)
      rcases ho : wfeLoop (ceilDiv t i) [] arrivals [] 0 t i 0 with _ | ⟨ev2, rem, sl⟩
      · rw [ho] at hs
        simp at hs
      · have hsp := wfeLoop_spec (ceilDiv t i) [] arrivals [] ev2 rem 0 t i 0 sl ho
        have hlen : ev2.length + rem.length = 0 := by
          have := hsp.1
          simpa using this
        have hev : ev2 = [] := List.length_eq_zero.mp (by omega)
        have hrem : rem = [] := List.length_eq_zero.mp (by omega)
        subst hev
        subst hrem
        exact ⟨sl, by unfold wait_for_events; exact ho,
          fun ht hhd => absurd ⟨ht, hhd⟩ hA, fun hall2 => absurd hall2 hall⟩

/-- C2 witness: the amended statement applied at the call-site parameters
with an empty bus — the call returns the empty result after 60 sleeps. -/
theorem c2_witness :
    ∃ sl, wait_for_events [] [] 30000 500 = some ([], [], sl) ∧ sl = 60 := by
  obtain ⟨sl, h1, h2, h3⟩ := c2_amended [] 30000 500 (by decide)
  exact ⟨sl, h1, (h3 (by simp)).trans (by decide)⟩

/-! ### Claim C8: single-use filters -/

/-- C8: within one correlation call every filter matches at most one
event: the collected events and the remaining (never-matched) filters
exactly partition the original filter count — one filter retired per
recorded event, first match wins — the remaining set only ever shrinks,
and every collected event was accepted by one of the original filters. -/
theorem c8_single_use (filters : List EventFilter)
    (arrivals : List (List SenseiEvent)) (t i : Nat)
    (ev2 : List SenseiEvent) (rem : List EventFilter) (sl : Nat)
    (h : wait_for_events filters arrivals t i = some (ev2, rem, sl)) :
    ev2.length + rem.length = filters.length ∧ rem ⊆ filters ∧
      ∀ e ∈ ev2, ∃ filt ∈ filters, filt.f e = true := by
  unfold wait_for_events at h
  have hsp := wfeLoop_spec _ _ _ _ _ _ _ _ _ _ _ h
  refine ⟨by have := hsp.1; simpa using this, hsp.2.1, ?_⟩
  intro e he
  rcases hsp.2.2 e he with h2 | h2
  · simp at h2
  · exact h2

/-- C8 witness: one always-true filter and one event — the filter retires
after its first match. -/
theorem c8_witness :
    [SenseiEvent.other 0].length + ([] : List EventFilter).length =
        [(⟨fun _ => true⟩ : EventFilter)].length ∧
      ([] : List EventFilter) ⊆ [(⟨fun _ => true⟩ : EventFilter)] ∧
      ∀ e ∈ [SenseiEvent.other 0],
        ∃ filt ∈ [(⟨fun _ => true⟩ : EventFilter)], filt.f e = true :=
  c8_single_use [⟨fun _ => true⟩] [[SenseiEvent.other 0]] 1 1
    [SenseiEvent.other 0] [] 0 rfl

/-! ### Claim C9: the counterparty unwrap cannot panic -/

/-- C9: whenever a request's result is still Ok after the
reclassification step a counterparty node id was recorded for it, so the
`counterparty_node_id.unwrap()` in the completion-dispatch loop
(channels.rs line 206) can never panic: dispatch over a reclassified
batch always completes. -/
theorem c9_unwrap_safe (env : Env) (tx : Tx) (events : List SenseiEvent)
    (pairs : List (OpenChannelRequest × Except Error Tcid))
    (t : OpenChannelRequest × Except Error Tcid × Option Nat)
    (ht : t ∈ reclassify events pairs) (hok : isOkE t.2.1 = true) :
    t.2.2.isSome = true ∧
      ∃ l, dispatchAll env tx (reclassify events pairs) = Outcome.ok l :=
  ⟨reclassify_cp_isSome events pairs t ht hok,
   dispatchAll_ok_exists env tx _ (reclassify_cp_isSome events pairs)⟩

/-- C9 witness: dispatch over one concrete reclassified Ok entry. -/
theorem c9_witness :
    ((happyReqA, (Except.ok 7 : Except Error Tcid),
        (some 77 : Option Nat)).2.2.isSome = true) ∧
      ∃ l, dispatchAll happyEnv ⟨42⟩
        (reclassify [happyEvent] [(happyReqA, Except.ok 7)]) = Outcome.ok l :=
  c9_unwrap_safe happyEnv ⟨42⟩ [happyEvent] [(happyReqA, Except.ok 7)]
    (happyReqA, Except.ok 7, some 77) (by decide) rfl

/-! ### Claim C7: one ordered result per request -/

/-- C7 counterexample: a batch of one request for which open_batch
returns no (request, outcome) pairs at all: the wallet build/sign step
fails and the source `unwrap`s it (channels.rs lines 190-191), aborting
the whole call before any result vector exists. -/
theorem c7_counterexample :
    open_batch signFailEnv (fun _ => 3) [happyReqA] =
      Outcome.abort "called Result unwrap on an Err value" := rfl

/-- C7 (amended): whenever open_batch returns at all (no panic during
initiation or transaction build/signing), it returns exactly one
(request, outcome) pair per input request — never fewer or more — in
input order, pairing the id-assigned request with its outcome. -/
theorem c7_amended (env : Env) (gen : Nat → Nat)
    (requests : List OpenChannelRequest) (out : BatchResult)
    (h : open_batch env gen requests = Outcome.ok out) :
    out.results.length = requests.length ∧
      out.results.map Prod.fst = assignIds gen requests := by
  have hfst := open_batch_results_fst env gen requests out h
  constructor
  · have hlen := congrArg List.length hfst
    simpa [assignIds, assignIdsFrom_length] using hlen
  · exact hfst

/-- C7 witness: the happy-path batch of one request returns exactly one
ordered pair. -/
theorem c7_witness :
    (⟨[(happyReqA, Except.ok 7)], 42, 1⟩ : BatchResult).results.length =
        [happyReqA].length ∧
      (⟨[(happyReqA, Except.ok 7)], 42, 1⟩ : BatchResult).results.map Prod.fst =
        assignIds (fun _ => 3) [happyReqA] :=
  c7_amended happyEnv (fun _ => 3) [happyReqA]
    ⟨[(happyReqA, Except.ok 7)], 42, 1⟩ rfl

/-! ### Claim C1: per-request failure isolation at initiation -/

/-- C1 counterexample: a request whose address fails to parse does not
get a typed per-request failure — `initiate_channel_open` panics
(channels.rs lines 231-233), and the panic aborts the whole batch,
producing no result for the other, healthy request either. -/
theorem c1_counterexample :
    initiate_channel_open parseFailEnv badAddrReq =
        Outcome.abort "failed to parse host port for counterparty" ∧
      open_batch parseFailEnv (fun _ => 3) [goodAddrReq, badAddrReq] =
        Outcome.abort "failed to parse host port for counterparty" :=
  ⟨rfl, rfl⟩

/-- C1 (amended): only a protocol-engine rejection at initiation is fatal
to that request alone — it is returned as a typed error and, when the
batch completes, that request's slot still carries exactly that error.
An address-parse failure, a missing address without a pre-existing
connection, a pubkey-parse failure or a connection failure panics
instead, aborting the entire batch with no per-request results. -/
theorem c1_amended :
    (∀ (env : Env) (gen : Nat → Nat) (requests : List OpenChannelRequest)
        (r : OpenChannelRequest), r ∈ assignIds gen requests →
        isAbort (initiate_channel_open env r) = true →
        isAbort (open_batch env gen requests) = true) ∧
      ∀ (env : Env) (gen : Nat → Nat) (requests : List OpenChannelRequest)
        (out : BatchResult) (i : Nat) (r : OpenChannelRequest) (e : Error),
        open_batch env gen requests = Outcome.ok out →
        (assignIds gen requests).get? i = some r →
        initiate_channel_open env r = Outcome.ok (Except.error e) →
        out.results.get? i = some (r, Except.error e) := by
  constructor
  · intro env gen requests r hr hab
    unfold open_batch
    cases hinit : initiateAll env (assignIds gen requests) with
    | abort m => rfl
    | ok p =>
      have habAll := initiateAll_abort env (assignIds gen requests) r hr hab
      rw [hinit] at habAll
      simp [isAbort] at habAll
  · intro env gen requests out i r e h hgi hie
    obtain ⟨pairs, filters, tx, hinit, htx, hres, _, _⟩ :=
      open_batch_inv env gen requests out h
    obtain ⟨res, hres2, hget⟩ :=
      initiateAll_get env (assignIds gen requests) pairs filters i r hinit hgi
    rw [hie] at hres2
    injection hres2 with hrese
    subst hrese
    rw [hres, List.get?_map]
    unfold reclassify
    rw [List.get?_map, hget]
    rfl

/-- C1 witness: the amended claim at concrete inputs — an address-parse
panic aborts a whole one-request batch, while a typed protocol rejection
survives to that request's result slot. -/
theorem c1_witness :
    isAbort (open_batch parseFailEnv (fun _ => 7) [badAddrReq]) = true ∧
      (⟨[(happyReqA, Except.error (Error.other 3))], 42, 0⟩ : BatchResult).results.get? 0 =
        some (happyReqA, Except.error (Error.other 3)) := by
  constructor
  · exact c1_amended.1 parseFailEnv (fun _ => 7) [badAddrReq] badAddrReq
      (by decide) rfl
  · exact c1_amended.2 ccFailEnv (fun _ => 7) [happyReqA]
      ⟨[(happyReqA, Except.error (Error.other 3))], 42, 0⟩ 0 happyReqA
      (Error.other 3) rfl rfl rfl

/-! ### Claim C3: debounce registration count -/

/-- C3 counterexample: one request initiates successfully but never
matches a funding-ready event; the debouncer is registered with count 0,
not with the initiation-success count 1 — the count is taken after the
reclassification step (channels.rs lines 194-197). -/
theorem c3_counterexample :
    open_batch noEventEnv (fun _ => 3) [happyReqA] =
        Outcome.ok ⟨[(happyReqA, Except.error Error.fundingGenerationNeverHappened)],
          42, 0⟩ ∧
      initiate_channel_open noEventEnv happyReqA = Outcome.ok (Except.ok 7) :=
  ⟨rfl, rfl⟩

/-- C3 (amended): the debouncer is registered with the funding
transaction id and the count of requests that both initiated successfully
and matched a collected funding-ready event (the entries still Ok after
reclassification); that registration is independent of the completion
oracle's later outcomes. -/
theorem c3_amended (env : Env) (gen : Nat → Nat)
    (requests : List OpenChannelRequest) (out : BatchResult)
    (pairs : List (OpenChannelRequest × Except Error Tcid))
    (filters : List EventFilter)
    (h : open_batch env gen requests = Outcome.ok out)
    (hinit : initiateAll env (assignIds gen requests) = Outcome.ok (pairs, filters)) :
    out.debounceCount =
      (pairs.filter (fun p => isOkE p.2 &&
        (batchEvents env filters).any (fun e => evMatches p.1 e))).length ∧
      ∀ (g : Tcid → Nat → Tx → Except Nat Unit) (out2 : BatchResult),
        open_batch { env with ftg := g } gen requests = Outcome.ok out2 →
        out2.debounceCount = out.debounceCount ∧
          out2.debounceTxid = out.debounceTxid := by
  obtain ⟨pairs1, filters1, tx1, hinit1, htx1, hres1, htxid1, hcount1⟩ :=
    open_batch_inv env gen requests out h
  rw [hinit] at hinit1
  injection hinit1 with h3
  injection h3 with hA hB
  subst hA
  subst hB
  constructor
  · rw [hcount1, reclassify_count]
  · intro g out2 h2
    obtain ⟨pairs2, filters2, tx2, hinit2, htx2, hres2, htxid2, hcount2⟩ :=
      open_batch_inv { env with ftg := g } gen requests out2 h2
    rw [initiateAll_ftg_indep env g (assignIds gen requests), hinit] at hinit2
    injection hinit2 with h4
    injection h4 with hC hD
    subst hC
    subst hD
    have htx2b : env.buildSign (fundingRecipients (batchEvents env filters))
        (satPerVbOf env.feeSatsPer1000Wu) = some tx2 := htx2
    rw [htx1] at htx2b
    injection htx2b with htxe
    subst htxe
    have hcount2b : out2.debounceCount =
        ((reclassify (batchEvents env filters) pairs).filter
          (fun t => isOkE t.2.1)).length := hcount2
    have htxid2b : out2.debounceTxid = tx1.txid := htxid2
    exact ⟨by rw [hcount2b, hcount1], by rw [htxid2b, htxid1]⟩

/-- C3 witness: the happy batch and a completion-rejecting variant get
the same debounce registration (count 1, transaction id 42) although
their completion outcomes differ. -/
theorem c3_witness :
    (⟨[(happyReqA, Except.ok 7)], 42, 1⟩ : BatchResult).debounceCount =
        ([(happyReqA, (Except.ok 7 : Except Error Tcid))].filter
          (fun p => isOkE p.2 &&
            (batchEvents happyEnv [mkFilter "n1" 9]).any
              (fun e => evMatches p.1 e))).length ∧
      (⟨[(happyReqA, Except.error (Error.ldkApi 9))], 42, 1⟩ : BatchResult).debounceCount =
          (⟨[(happyReqA, Except.ok 7)], 42, 1⟩ : BatchResult).debounceCount ∧
        (⟨[(happyReqA, Except.error (Error.ldkApi 9))], 42, 1⟩ : BatchResult).debounceTxid =
          (⟨[(happyReqA, Except.ok 7)], 42, 1⟩ : BatchResult).debounceTxid := by
  have hmain := c3_amended happyEnv (fun _ => 3) [happyReqA]
    ⟨[(happyReqA, Except.ok 7)], 42, 1⟩ [(happyReqA, Except.ok 7)]
    [mkFilter "n1" 9] rfl rfl
  exact ⟨hmain.1, hmain.2 (fun _ _ _ => Except.error 9)
    ⟨[(happyReqA, Except.error (Error.ldkApi 9))], 42, 1⟩ rfl⟩

/-! ### Claim C5: timeout reclassification -/

/-- C5: a request whose initiation succeeded but whose correlation id
matches no collected funding-ready event has its result replaced by the
definitive FundingGenerationNeverHappened error; a matched request keeps
its initiation success and its final outcome is that of its
completion-dispatch call on the shared transaction. -/
theorem c5_reclassification (env : Env) (gen : Nat → Nat)
    (requests : List OpenChannelRequest) (out : BatchResult)
    (pairs : List (OpenChannelRequest × Except Error Tcid))
    (filters : List EventFilter) (tx : Tx) (i : Nat)
    (r : OpenChannelRequest) (tcid : Tcid)
    (h : open_batch env gen requests = Outcome.ok out)
    (hinit : initiateAll env (assignIds gen requests) = Outcome.ok (pairs, filters))
    (htx : env.buildSign (fundingRecipients (batchEvents env filters))
        (satPerVbOf env.feeSatsPer1000Wu) = some tx)
    (hp : pairs.get? i = some (r, Except.ok tcid)) :
    ((batchEvents env filters).find? (fun e => evMatches r e) = none →
        out.results.get? i =
          some (r, Except.error Error.fundingGenerationNeverHappened)) ∧
      ∀ e, (batchEvents env filters).find? (fun e2 => evMatches r e2) = some e →
        out.results.get? i =
          some (dispatchEntry env tx (r, Except.ok tcid, cpOf e)) := by
  obtain ⟨pairs1, filters1, tx1, hinit1, htx1, hres1, _, _⟩ :=
    open_batch_inv env gen requests out h
  rw [hinit] at hinit1
  injection hinit1 with h3
  injection h3 with hA hB
  subst hA
  subst hB
  rw [htx] at htx1
  injection htx1 with htxe
  subst htxe
  constructor
  · intro hnone
    have h1 : reclassEntry (batchEvents env filters) (r, Except.ok tcid) =
        (r, Except.error Error.fundingGenerationNeverHappened, none) := by
      simp [reclassEntry, hnone]
    rw [hres1, List.get?_map]
    unfold reclassify
    rw [List.get?_map, hp]
    simp [h1, dispatchEntry]
  · intro e he
    have h1 : reclassEntry (batchEvents env filters) (r, Except.ok tcid) =
        (r, Except.ok tcid, cpOf e) := by
      simp [reclassEntry, he]
    rw [hres1, List.get?_map]
    unfold reclassify
    rw [List.get?_map, hp]
    simp [h1]

/-- C5 witness: the matched branch at the happy-path batch — the matched
request keeps its temporary channel id and its final outcome is the
completion call's. -/
theorem c5_witness :
    (⟨[(happyReqA, Except.ok 7)], 42, 1⟩ : BatchResult).results.get? 0 =
      some (dispatchEntry happyEnv ⟨42⟩ (happyReqA, Except.ok 7, cpOf happyEvent)) :=
  (c5_reclassification happyEnv (fun _ => 3) [happyReqA]
      ⟨[(happyReqA, Except.ok 7)], 42, 1⟩ [(happyReqA, Except.ok 7)]
      [mkFilter "n1" 9] ⟨42⟩ 0 happyReqA 7 rfl rfl rfl rfl).2 happyEvent rfl

/-! ### Claim C6: correlation-id assignment -/

/-- C6 counterexample: ids are drawn independently per request with no
collision check; the colliding generator stream (admissible under the
gen_range(1..u64::MAX) contract, as the second conjunct records) assigns
the same id 5 to both id-less requests — assigned correlation ids are
not batch-unique. -/
theorem c6_counterexample :
    (assignIds (fun _ => 5) [noIdReq, noIdReq]).map (fun r => r.custom_id) =
        [some 5, some 5] ∧
      (1 ≤ 5 ∧ 5 < 18446744073709551615) :=
  ⟨rfl, by decide⟩

/-- C6 (amended): before any protocol call every request without a
caller-supplied correlation id is assigned one, non-zero under the
gen_range(1..u64::MAX) contract; a caller-supplied id is kept unchanged;
and the id-assigned request is returned verbatim in that slot of the
batch result (the id is immutable for the life of the request).
Batch-uniqueness of the generated ids is not guaranteed. -/
theorem c6_amended (gen : Nat → Nat) (requests : List OpenChannelRequest)
    (i : Nat) (r : OpenChannelRequest)
    (hgen : ∀ j, 1 ≤ gen j ∧ gen j < 18446744073709551615)
    (hr : requests.get? i = some r) :
    ∃ r2, (assignIds gen requests).get? i = some r2 ∧
      r2.custom_id = some (r.custom_id.getD (gen i)) ∧
      (r.custom_id = none → r2.custom_id = some (gen i) ∧ gen i ≠ 0) ∧
      (∀ c, r.custom_id = some c → r2.custom_id = some c) ∧
      ∀ (env : Env) (out : BatchResult),
        open_batch env gen requests = Outcome.ok out →
        ∃ res, out.results.get? i = some (r2, res) := by
  have hg2 : (assignIds gen requests).get? i =
      some { r with custom_id := some (r.custom_id.getD (gen i)) } := by
    unfold assignIds
    rw [assignIdsFrom_get? gen requests 0 i]
    simp only [Nat.zero_add]
    rw [hr]
    rfl
  refine ⟨{ r with custom_id := some (r.custom_id.getD (gen i)) },
    hg2, rfl, ?_, ?_, ?_⟩
  · intro h0
    have h1 := (hgen i).1
    simp [h0]
    omega
  · intro c hc
    simp [hc]
  · intro env out hout
    have hfst := open_batch_results_fst env gen requests out hout
    have h2 : (out.results.map Prod.fst).get? i =
        some { r with custom_id := some (r.custom_id.getD (gen i)) } := by
      rw [hfst]
      exact hg2
    rw [List.get?_map] at h2
    cases hq : out.results.get? i with
    | none =>
      rw [hq] at h2
      simp at h2
    | some p =>
      rw [hq] at h2
      rcases p with ⟨p1, p2⟩
      simp at h2
      subst h2
      exact ⟨p2, rfl⟩

/-- C6 witness: the amended statement at one id-less request with a
generator that returns 3. -/
theorem c6_witness :
    ∃ r2, (assignIds (fun _ => 3) [noIdReq]).get? 0 = some r2 ∧
      r2.custom_id = some (noIdReq.custom_id.getD 3) ∧
      (noIdReq.custom_id = none → r2.custom_id = some 3 ∧ (3 : Nat) ≠ 0) ∧
      (∀ c, noIdReq.custom_id = some c → r2.custom_id = some c) ∧
      ∀ (env : Env) (out : BatchResult),
        open_batch env (fun _ => 3) [noIdReq] = Outcome.ok out →
        ∃ res, out.results.get? 0 = some (r2, res) :=
  c6_amended (fun _ => 3) [noIdReq] 0 noIdReq
    (fun _ => (by decide : 1 ≤ 3 ∧ 3 < 18446744073709551615)) rfl

end Sensei
